import Mathlib

/-!
Verification of the VPC IP Fragmentation Viewer's allocation and
fragmentation analysis engine and of its React presentation components.
The frontend components (`Statistics`, `SubnetList`, `IpVisualization`)
are embedded from the sources; the backend analysis engine (Flask
`app.py`) is modelled from the specification.
-/

/-- Status of a classified address, as exposed by the engine. -/
inductive IpStatus
  | used
  | reserved
  | cidr_reservation
  | free
deriving DecidableEq, Repr

/-- Type tag of a CIDR reservation record. -/
inductive ResvType
  | explicitResv
  | prefixResv
deriving DecidableEq, Repr

/-- ENI-derived allocation kind for a used address. -/
inductive UsedType
  | primary
  | secondary
  | prefixDelegation
deriving DecidableEq, Repr

/-- Modelled from the spec: the missing backend's `AddressSpace` value
type — a subnet CIDR block as network address plus prefix length. -/
structure AddressSpace where
  networkAddress : Nat
  prefixLen : Nat
deriving DecidableEq, Repr

/-- Modelled from the spec: `size()` of an address space,
`2^(32 - prefixLength)`. -/
def AddressSpace.size (a : AddressSpace) : Nat := 2 ^ (32 - a.prefixLen)

/-- Whether address `x` lies in the range covered by block `a`. -/
def AddressSpace.containsAddr (a : AddressSpace) (x : Nat) : Bool :=
  a.networkAddress ≤ x && x < a.networkAddress + a.size

/-- Split a character list at every occurrence of `sep` (the separator
itself is dropped), like `String.split` in the backend's language. -/
def splitList (sep : Char) : List Char → List (List Char)
  | [] => [[]]
  | c :: rest =>
    if c = sep then [] :: splitList sep rest
    else
      match splitList sep rest with
      | [] => [[c]]
      | h :: t => (c :: h) :: t

/-- Accumulate the decimal value of a digit string. -/
def parseDigitsAux : List Char → Nat → Option Nat
  | [], acc => some acc
  | c :: rest, acc =>
    if c.isDigit then parseDigitsAux rest (acc * 10 + (c.toNat - 48))
    else none

/-- Parse a non-empty all-digit character list as a decimal number. -/
def parseDigits (cs : List Char) : Option Nat :=
  match cs with
  | [] => none
  | _ => parseDigitsAux cs 0

/-- Parse one dotted-quad octet: digits only, value at most 255. -/
def parseOctet (cs : List Char) : Option Nat :=
  match parseDigits cs with
  | some n => if n ≤ 255 then some n else none
  | none => none

/-- Split into exactly two parts at `sep`, if possible. -/
def splitPair (cs : List Char) (sep : Char) : Option (List Char × List Char) :=
  match splitList sep cs with
  | [x, y] => some (x, y)
  | _ => none

/-- Split into exactly four dot-separated parts, if possible. -/
def splitQuad (cs : List Char) :
    Option (List Char × List Char × List Char × List Char) :=
  match splitList '.' cs with
  | [a, b, c, d] => some (a, b, c, d)
  | _ => none

/-- Modelled from the spec: the missing backend's CIDR-string parser.
Accepts `a.b.c.d/p` with octets in [0,255] and prefix length in [0,32]. -/
def parseCidrChars (cs : List Char) : Option AddressSpace :=
  (splitPair cs '/').bind fun ap =>
  (splitQuad ap.1).bind fun q =>
  (parseOctet q.1).bind fun a =>
  (parseOctet q.2.1).bind fun b =>
  (parseOctet q.2.2.1).bind fun c =>
  (parseOctet q.2.2.2).bind fun d =>
  (parseDigits ap.2).bind fun p =>
  if p ≤ 32 then some ⟨((a * 256 + b) * 256 + c) * 256 + d, p⟩ else none

/-- Structured errors surfaced by the analysis engine. -/
inductive AnalysisError
  | InvalidCidr
deriving DecidableEq, Repr

/-- Modelled from the spec: `AddressSpace` construction from a CIDR
string, failing with `InvalidCidr` on malformed input. -/
def parseCidr (s : String) : Except AnalysisError AddressSpace :=
  match parseCidrChars s.data with
  | some a => Except.ok a
  | none => Except.error AnalysisError.InvalidCidr

/-- A CIDR string is well formed: it splits as `addr/pfx`, the address
part splits into four valid octets, and the prefix part is a decimal
number at most 32. -/
def wellFormedCidr (s : String) : Prop :=
  ∃ addr pfx o1 o2 o3 o4 a b c d p,
    splitPair s.data '/' = some (addr, pfx) ∧
    splitQuad addr = some (o1, o2, o3, o4) ∧
    parseOctet o1 = some a ∧ parseOctet o2 = some b ∧
    parseOctet o3 = some c ∧ parseOctet o4 = some d ∧
    parseDigits pfx = some p ∧ p ≤ 32

example : parseCidr "10.0.1.0/28" = Except.ok ⟨167772416, 28⟩ := rfl
example : parseCidr "10.0.1/28" = Except.error AnalysisError.InvalidCidr := rfl
example : (⟨167772416, 28⟩ : AddressSpace).size = 16 := by decide

/-- A network-interface inventory record, per the external interface:
one primary private IP, a list of secondary private IPs and a list of
attached IPv4 prefix blocks (already parsed to address ranges). -/
structure InterfaceRecord where
  interfaceId : String
  description : String
  eniStatus : String
  primaryPrivateIp : Nat
  secondaryPrivateIps : List Nat
  attachedIpv4Prefixes : List AddressSpace
deriving DecidableEq, Repr

/-- A CIDR-reservation inventory record with its parsed address block. -/
structure ReservationRecord where
  reservationId : String
  cidr : String
  rtype : ResvType
  block : AddressSpace
  description : String
deriving DecidableEq, Repr

/-- A Used allocation source resolved from the ENI inventory. -/
structure UsedSource where
  utype : UsedType
  interfaceId : String
  description : String
  eniStatus : String
deriving DecidableEq, Repr

/-- Modelled from the spec: steps 2-4 of the missing backend's
`AllocationIndex` build — resolve the Used source covering an address.
Primary assignments win over secondary, secondary over prefix
delegation; duplicate inventory entries resolve last-write-wins. -/
def usedSourceAt (ifaces : List InterfaceRecord) (a : Nat) : Option UsedSource :=
  match ifaces.reverse.find? (fun i => i.primaryPrivateIp == a) with
  | some i => some ⟨UsedType.primary, i.interfaceId, i.description, i.eniStatus⟩
  | none =>
    match ifaces.reverse.find? (fun i => i.secondaryPrivateIps.contains a) with
    | some i => some ⟨UsedType.secondary, i.interfaceId, i.description, i.eniStatus⟩
    | none =>
      match ifaces.find? (fun i => i.attachedIpv4Prefixes.any (·.containsAddr a)) with
      | some i =>
        some ⟨UsedType.prefixDelegation, i.interfaceId, i.description, i.eniStatus⟩
      | none => none

/-- Modelled from the spec: step 5 of the missing backend's
`AllocationIndex` build — the first four addresses and the last address
of the subnet block are AWS-reserved. -/
def awsReservedAt (subnet : AddressSpace) (a : Nat) : Bool :=
  (subnet.networkAddress ≤ a && a - subnet.networkAddress < 4) ||
    a == subnet.networkAddress + subnet.size - 1

/-- Modelled from the spec: step 6 of the missing backend's
`AllocationIndex` build — the CIDR reservation covering an address,
first-listed-wins on overlap. -/
def reservationAt (resvs : List ReservationRecord) (a : Nat) :
    Option ReservationRecord :=
  resvs.find? (fun r => r.block.containsAddr a)

/-- Overlapping-reservation overlay carried in the detail of a `used`
address that also falls in a CIDR reservation. -/
structure ResvOverlay where
  cidr : String
  rtype : ResvType
  description : String
deriving DecidableEq, Repr

/-- Detail payload attached to a classified address; every field is
optional, mirroring the JSON detail objects the frontend consumes. -/
structure IpDetails where
  dtype : Option String := none
  interfaceId : Option String := none
  description : Option String := none
  eniStatus : Option String := none
  reason : Option String := none
  reservationId : Option String := none
  cidr : Option String := none
  cidrReservation : Option ResvOverlay := none
deriving DecidableEq, Repr

/-- A classified address: address, status and detail. -/
structure ClassifiedAddress where
  addr : Nat
  status : IpStatus
  details : IpDetails
deriving DecidableEq, Repr

/-- JSON type-tag string for a Used allocation kind. -/
def UsedType.tag : UsedType → String
  | UsedType.primary => "primary"
  | UsedType.secondary => "secondary"
  | UsedType.prefixDelegation => "prefix_delegation"

/-- JSON type-tag string for a reservation kind. -/
def ResvType.tag : ResvType → String
  | ResvType.explicitResv => "explicit"
  | ResvType.prefixResv => "prefix"

/-- Modelled from the spec: the missing backend's `Classifier` for one
address. Used sources win; AWS-reserved next; then CIDR reservations;
otherwise free. A used address covered by a reservation keeps the
reservation as overlay detail. -/
def classifyAddr (subnet : AddressSpace) (ifaces : List InterfaceRecord)
    (resvs : List ReservationRecord) (a : Nat) : ClassifiedAddress :=
  match usedSourceAt ifaces a with
  | some u =>
    { addr := a, status := IpStatus.used,
      details :=
        { dtype := some u.utype.tag, interfaceId := some u.interfaceId,
          description := some u.description, eniStatus := some u.eniStatus,
          cidrReservation := (reservationAt resvs a).map
            (fun r => ⟨r.cidr, r.rtype, r.description⟩) } }
  | none =>
    if awsReservedAt subnet a then
      { addr := a, status := IpStatus.reserved,
        details := { reason := some "AWS reserved" } }
    else
      match reservationAt resvs a with
      | some r =>
        { addr := a, status := IpStatus.cidr_reservation,
          details :=
            { dtype := some r.rtype.tag, reservationId := some r.reservationId,
              cidr := some r.cidr, description := some r.description } }
      | none => { addr := a, status := IpStatus.free, details := {} }

/-- Modelled from the spec: the missing backend's `GapAnalyzer` scan —
one pass, left to right, tracking the current run of consecutive
`free` addresses; any other status ends the run. -/
def gapScan : List IpStatus → Nat → List Nat
  | [], cur => if cur = 0 then [] else [cur]
  | s :: rest, cur =>
    if s = IpStatus.free then gapScan rest (cur + 1)
    else if cur = 0 then gapScan rest 0
    else cur :: gapScan rest 0

/-- Lengths of the free runs found by the gap-analysis scan. -/
def gapRuns (l : List IpStatus) : List Nat := gapScan l 0

/-- Lengths of the maximal runs of consecutive `free` statuses, by
direct recursion: a run starts at a free element and extends while the
status stays `free`. -/
def maximalFreeRuns : List IpStatus → List Nat
  | [] => []
  | s :: rest =>
    if s = IpStatus.free then
      (1 + (rest.takeWhile (· = IpStatus.free)).length) ::
        maximalFreeRuns (rest.dropWhile (· = IpStatus.free))
    else maximalFreeRuns rest
termination_by l => l.length
decreasing_by
  · exact Nat.lt_succ_of_le (List.dropWhile_sublist _).length_le
  · exact Nat.lt_succ_self _

/-- Gap statistics, with the field names the backend serializes. -/
structure GapStats where
  num_gaps : Nat
  largest_gap : Nat
  avg_gap_size : ℚ
deriving DecidableEq, Repr

/-- Modelled from the spec: the missing backend's gap statistics —
count of free runs, largest run (0 if none), mean run length (0 if no
runs). -/
def gapStats (l : List IpStatus) : GapStats :=
  let runs := gapRuns l
  { num_gaps := runs.length,
    largest_gap := runs.foldr max 0,
    avg_gap_size :=
      if runs.length = 0 then 0 else (runs.sum : ℚ) / (runs.length : ℚ) }

/-- Modelled from the spec: the missing backend's `FragmentationScorer`
formula — 0 when there is at most one free address or at most one gap;
otherwise a value increasing with the gap count and decreasing with
the proportion of free space held by the largest gap, clamped to
[0, 100]. -/
def fragmentationScore (numGaps largestGap availableIps : Nat) : ℚ :=
  if availableIps ≤ 1 ∨ numGaps ≤ 1 then 0
  else
    min 100 (max 0 ((10 * numGaps : ℚ) *
      (1 - (largestGap : ℚ) / (availableIps : ℚ))))

/-- Round a rational to two decimal places. -/
def round2 (q : ℚ) : ℚ := (round (q * 100) : ℚ) / 100

/-- Per-subnet aggregate report, per the spec's `FragmentationReport`. -/
structure FragmentationReport where
  totalIps : Nat
  usedIps : Nat
  availableIps : Nat
  reservedIps : Nat
  primaryIps : Nat
  secondaryIps : Nat
  prefixDelegationIps : Nat
  cidrReservationIps : Nat
  utilization : ℚ
  fragmentationScore : ℚ
  fragmentationDetails : GapStats
deriving DecidableEq, Repr

/-- Modelled from the spec: the missing backend's `StatsAggregator` plus
scorer — roll the classified sequence up into the subnet report. -/
def buildReport (subnet : AddressSpace) (ips : List ClassifiedAddress) :
    FragmentationReport :=
  { totalIps := subnet.size,
    usedIps := ips.countP (·.status == IpStatus.used),
    availableIps := ips.countP (·.status == IpStatus.free),
    reservedIps := ips.countP (·.status == IpStatus.reserved),
    primaryIps := ips.countP
      (fun c => c.status == IpStatus.used && c.details.dtype == some "primary"),
    secondaryIps := ips.countP
      (fun c => c.status == IpStatus.used && c.details.dtype == some "secondary"),
    prefixDelegationIps := ips.countP (fun c =>
      c.status == IpStatus.used && c.details.dtype == some "prefix_delegation"),
    cidrReservationIps := ips.countP (·.status == IpStatus.cidr_reservation),
    utilization := round2
      ((ips.countP (·.status == IpStatus.used) : ℚ) / (subnet.size : ℚ) * 100),
    fragmentationScore :=
      fragmentationScore (gapStats (ips.map (·.status))).num_gaps
        (gapStats (ips.map (·.status))).largest_gap
        (ips.countP (·.status == IpStatus.free)),
    fragmentationDetails := gapStats (ips.map (·.status)) }

/-- Result of one analysis pass: the classified sequence plus report. -/
structure AnalysisResult where
  ips : List ClassifiedAddress
  summary : FragmentationReport
deriving DecidableEq, Repr

/-- Modelled from the spec: the full classified sequence of a subnet,
in natural address order. -/
def classifiedIps (space : AddressSpace) (ifaces : List InterfaceRecord)
    (resvs : List ReservationRecord) : List ClassifiedAddress :=
  (List.range space.size).map
    (fun i => classifyAddr space ifaces resvs (space.networkAddress + i))

/-- Modelled from the spec: the missing backend's `analyzeSubnet` —
parse the CIDR, classify every address in order, aggregate.  Either a
complete result or a structured error; never a partial result. -/
def analyzeSubnet (subnetCidr : String) (ifaces : List InterfaceRecord)
    (resvs : List ReservationRecord) : Except AnalysisError AnalysisResult :=
  match parseCidr subnetCidr with
  | Except.error e => Except.error e
  | Except.ok space =>
    Except.ok { ips := classifiedIps space ifaces resvs,
                summary := buildReport space (classifiedIps space ifaces resvs) }

/-- The summary of an analysis outcome, when the analysis succeeded. -/
def summaryOf (r : Except AnalysisError AnalysisResult) :
    Option FragmentationReport :=
  r.toOption.map (·.summary)

/-- Fragmentation banding from `Statistics.getFragmentationLevel`. -/
inductive FragLevel
  | low
  | moderate
  | high
deriving DecidableEq, Repr

/-- From `Statistics.js`: level and color for a fragmentation score. -/
def getFragmentationLevel (score : ℚ) : FragLevel × String :=
  if score < 20 then (FragLevel.low, "#10b981")
  else if score < 50 then (FragLevel.moderate, "#f59e0b")
  else (FragLevel.high, "#ef4444")

/-- From `SubnetList.js`: bar color for a fragmentation score. -/
def getFragmentationColor (score : ℚ) : String :=
  if score < 20 then "#10b981"
  else if score < 50 then "#f59e0b"
  else "#ef4444"

/-- Detail object of an IP record as the visualization sees it; the
`type` field may be absent. -/
structure IpViewDetails where
  dtype : Option String := none
deriving DecidableEq, Repr

/-- An IP record as the visualization sees it: both the status and the
detail object may be absent or unrecognized. -/
structure IpView where
  status : Option String := none
  details : Option IpViewDetails := none
deriving DecidableEq, Repr

/-- The optional-chained `ip.details?.type` access. -/
def IpView.detailType (ip : IpView) : Option String :=
  ip.details.bind (·.dtype)

/-- From `IpVisualization.getIpColor`: block color for an IP record. -/
def getIpColor (ip : IpView) : String :=
  if ip.status = some "used" then
    if ip.detailType = some "primary" then "#3b82f6"
    else if ip.detailType = some "secondary" then "#06b6d4"
    else if ip.detailType = some "prefix_delegation" then "#8b5cf6"
    else "#3b82f6"
  else if ip.status = some "reserved" then "#9ca3af"
  else if ip.status = some "cidr_reservation" then
    if ip.detailType = some "explicit" then "#f59e0b"
    else if ip.detailType = some "prefix" then "#f97316"
    else "#f59e0b"
  else if ip.status = some "free" then "#f3f4f6"
  else "#f3f4f6"

/-- From `IpVisualization`: an address is flagged as used-with-overlap
when its status is `used` and its detail carries a CIDR reservation. -/
def hasReservationOverlap (c : ClassifiedAddress) : Bool :=
  c.status == IpStatus.used && c.details.cidrReservation.isSome

/-- From `Statistics.js`: the three gap rows read back from the report's
`fragmentationDetails` object, by field name. -/
def statisticsGapRows (details : String → Option ℚ) :
    Option ℚ × Option ℚ × Option ℚ :=
  (details "num_gaps", details "largest_gap", details "avg_gap_size")

/-- Field lookup on the serialized gap-statistics object: the backend
exposes the three gap statistics under these JSON keys. -/
def GapStats.lookup (g : GapStats) (k : String) : Option ℚ :=
  if k = "num_gaps" then some (g.num_gaps : ℚ)
  else if k = "largest_gap" then some (g.largest_gap : ℚ)
  else if k = "avg_gap_size" then some g.avg_gap_size
  else none

/-- A subnet record as `SubnetList` receives it. -/
structure SubnetView where
  id : String
  name : String
  availabilityZone : String
  cidr : String
  utilization : ℚ
  usedIps : Nat
  totalIps : Nat
  availableIps : Nat
  fragmentationScore : ℚ
deriving DecidableEq, Repr

/-- One rendered subnet list entry. -/
structure SubnetItem where
  key : String
  name : String
  fragColor : String
deriving DecidableEq, Repr

/-- The list entry `SubnetList` renders for one subnet. -/
def mkSubnetItem (s : SubnetView) : SubnetItem :=
  { key := s.id, name := s.name,
    fragColor := getFragmentationColor s.fragmentationScore }

/-- The three mutually exclusive renderings of `SubnetList`. -/
inductive SubnetListRender
  | loadingIndicator
  | emptyState
  | items (xs : List SubnetItem)
deriving DecidableEq, Repr

/-- From `SubnetList.js`: loading wins, then the empty state, then one
item per subnet in order. -/
def renderSubnetList (loading : Bool) (subnets : List SubnetView) :
    SubnetListRender :=
  if loading then SubnetListRender.loadingIndicator
  else if subnets.length = 0 then SubnetListRender.emptyState
  else SubnetListRender.items (subnets.map mkSubnetItem)

/-- The §8 scenario ENI: primary IP 10.0.1.4, secondary 10.0.1.5. -/
def scenarioEni : InterfaceRecord :=
  { interfaceId := "eni-1", description := "scenario", eniStatus := "in-use",
    primaryPrivateIp := 167772420, secondaryPrivateIps := [167772421],
    attachedIpv4Prefixes := [] }

/-- The §8 scenario reservation: 10.0.1.10/31, explicit. -/
def scenarioResv : ReservationRecord :=
  { reservationId := "scr-1", cidr := "10.0.1.10/31",
    rtype := ResvType.explicitResv, block := ⟨167772426, 31⟩,
    description := "scenario reservation" }

example :
    (summaryOf (analyzeSubnet "10.0.1.0/28" [scenarioEni] [])).map
      (fun s => (s.usedIps, s.reservedIps, s.availableIps,
        s.fragmentationDetails.num_gaps, s.fragmentationDetails.largest_gap)) =
    some (2, 5, 9, 1, 9) := rfl

example :
    (summaryOf (analyzeSubnet "10.0.1.0/28" [scenarioEni] [scenarioResv])).map
      (fun s => (s.cidrReservationIps, s.availableIps,
        s.fragmentationDetails.num_gaps, s.fragmentationDetails.largest_gap)) =
    some (2, 7, 2, 4) := rfl

example :
    (summaryOf (analyzeSubnet "10.0.1.7/32" [] [])).map
      (fun s => (s.fragmentationScore, s.fragmentationDetails.num_gaps)) =
    some (0, 0) := rfl

/-- Every classified address has exactly one of the four statuses, so
the four status counts partition the sequence. -/
lemma countP_status_partition (l : List ClassifiedAddress) :
    l.countP (·.status == IpStatus.used) +
      l.countP (·.status == IpStatus.reserved) +
      l.countP (·.status == IpStatus.cidr_reservation) +
      l.countP (·.status == IpStatus.free) = l.length := by
  induction l with
  | nil => rfl
  | cons a t ih =>
    simp only [List.countP_cons, List.length_cons]
    cases h : a.status <;> simp [h] <;> omega

/-- Unfolding: the scan on a non-free head closes any open run. -/
lemma gapScan_cons_nonfree (s : IpStatus) (hs : s ≠ IpStatus.free)
    (rest : List IpStatus) (cur : Nat) :
    gapScan (s :: rest) cur =
      if cur = 0 then gapScan rest 0 else cur :: gapScan rest 0 := by
  cases s
  case free => exact absurd rfl hs
  all_goals rfl

/-- Unfolding: on a non-free head the maximal runs are those of the tail. -/
lemma maximalFreeRuns_cons_nonfree (s : IpStatus) (hs : s ≠ IpStatus.free)
    (rest : List IpStatus) :
    maximalFreeRuns (s :: rest) = maximalFreeRuns rest := by
  cases s
  case free => exact absurd rfl hs
  all_goals simp [maximalFreeRuns]

/-- Unfolding: on a free head the first maximal run is the whole
leading free stretch. -/
lemma maximalFreeRuns_cons_free (rest : List IpStatus) :
    maximalFreeRuns (IpStatus.free :: rest) =
      (1 + (rest.takeWhile (· = IpStatus.free)).length) ::
        maximalFreeRuns (rest.dropWhile (· = IpStatus.free)) := by
  simp [maximalFreeRuns]

/-- The single-pass gap scan computes exactly the maximal free runs:
with an open run of length `cur`, the scan extends it through the
leading free stretch and then continues fresh. -/
lemma gapScan_spec (l : List IpStatus) :
    gapScan l 0 = maximalFreeRuns l ∧
    ∀ cur, 0 < cur → gapScan l cur =
      (cur + (l.takeWhile (· = IpStatus.free)).length) ::
        maximalFreeRuns (l.dropWhile (· = IpStatus.free)) := by
  induction l with
  | nil =>
    refine ⟨by simp [gapScan, maximalFreeRuns], fun cur hc => ?_⟩
    simp [gapScan, maximalFreeRuns, Nat.pos_iff_ne_zero.mp hc]
  | cons s rest ih =>
    by_cases hs : s = IpStatus.free
    · subst hs
      constructor
      · have h0 : gapScan (IpStatus.free :: rest) 0 = gapScan rest 1 := rfl
        rw [h0, ih.2 1 Nat.one_pos, maximalFreeRuns_cons_free]
      · intro cur hc
        have h0 : gapScan (IpStatus.free :: rest) cur = gapScan rest (cur + 1) := rfl
        have ht : List.takeWhile (fun x => decide (x = IpStatus.free))
            (IpStatus.free :: rest) =
            IpStatus.free :: List.takeWhile (fun x => decide (x = IpStatus.free)) rest := by
          simp
        have hd : List.dropWhile (fun x => decide (x = IpStatus.free))
            (IpStatus.free :: rest) =
            List.dropWhile (fun x => decide (x = IpStatus.free)) rest := by
          simp
        rw [h0, ih.2 (cur + 1) (Nat.succ_pos _), ht, hd, List.length_cons]
        congr 1
        omega
    · have ht : List.takeWhile (fun x => decide (x = IpStatus.free)) (s :: rest) = [] := by
        simp [List.takeWhile_cons, hs]
      have hd : List.dropWhile (fun x => decide (x = IpStatus.free)) (s :: rest) =
          s :: rest := by
        simp [List.dropWhile_cons, hs]
      constructor
      · rw [gapScan_cons_nonfree s hs rest 0, if_pos rfl, ih.1,
          maximalFreeRuns_cons_nonfree s hs rest]
      · intro cur hc
        rw [gapScan_cons_nonfree s hs rest cur, if_neg (Nat.pos_iff_ne_zero.mp hc), ih.1,
          ht, hd, maximalFreeRuns_cons_nonfree s hs rest, List.length_nil, Nat.add_zero]


/-- C1: For every subnet analysis pass that returns a FragmentationReport,
the counts satisfy usedIps + reservedIps + cidrReservationIps +
availableIps = totalIps. -/
theorem C1_count_invariant (subnetCidr : String) (ifaces : List InterfaceRecord)
    (resvs : List ReservationRecord) (res : AnalysisResult)
    (h : analyzeSubnet subnetCidr ifaces resvs = Except.ok res) :
    res.summary.usedIps + res.summary.reservedIps +
      res.summary.cidrReservationIps + res.summary.availableIps =
      res.summary.totalIps := by
  unfold analyzeSubnet at h
  cases hp : parseCidr subnetCidr with
  | error e =>
    rw [hp] at h
    exact absurd h (by simp)
  | ok space =>
    rw [hp] at h
    simp only [Except.ok.injEq] at h
    subst h
    simp only [buildReport]
    rw [countP_status_partition]
    simp [classifiedIps]

/-- C1 witness: the §8 scenario subnet satisfies the count invariant. -/
theorem C1_witness :
    ∃ res, analyzeSubnet "10.0.1.0/28" [scenarioEni] [scenarioResv] = Except.ok res ∧
      res.summary.usedIps + res.summary.reservedIps +
        res.summary.cidrReservationIps + res.summary.availableIps =
        res.summary.totalIps := by
  have hOk : (analyzeSubnet "10.0.1.0/28" [scenarioEni] [scenarioResv]).toOption.isSome
      = true := rfl
  cases hres : analyzeSubnet "10.0.1.0/28" [scenarioEni] [scenarioResv] with
  | error e =>
    rw [hres] at hOk
    exact absurd hOk (by simp [Except.toOption])
  | ok res =>
    exact ⟨res, rfl, C1_count_invariant "10.0.1.0/28" [scenarioEni] [scenarioResv] res hres⟩

/-- C2: An address with a Used source that also falls in a CIDR
reservation's range is classified `used`, and its detail carries the
overlapping reservation's cidr, type and description; the frontend's
overlap flag observes both facts. -/
theorem C2_used_reservation_overlap (subnet : AddressSpace)
    (ifaces : List InterfaceRecord) (resvs : List ReservationRecord)
    (a : Nat) (u : UsedSource)
    (hu : usedSourceAt ifaces a = some u)
    (hcov : ∃ r ∈ resvs, r.block.containsAddr a = true) :
    (classifyAddr subnet ifaces resvs a).status = IpStatus.used ∧
    (∃ r, reservationAt resvs a = some r ∧ r.block.containsAddr a = true ∧
      (classifyAddr subnet ifaces resvs a).details.cidrReservation =
        some ⟨r.cidr, r.rtype, r.description⟩) ∧
    hasReservationOverlap (classifyAddr subnet ifaces resvs a) = true := by
  have hsome : (reservationAt resvs a).isSome = true := by
    rcases hcov with ⟨r, hr, hm⟩
    cases hfind : reservationAt resvs a with
    | some r0 => rfl
    | none =>
      unfold reservationAt at hfind
      rw [List.find?_eq_none] at hfind
      exact absurd hm (by simpa using hfind r hr)
  cases hfind : reservationAt resvs a with
  | none => rw [hfind] at hsome; exact absurd hsome (by simp)
  | some r =>
    have hfind' : List.find? (fun x : ReservationRecord => x.block.containsAddr a) resvs
        = some r := hfind
    have hmem : r.block.containsAddr a = true :=
      List.find?_some (p := fun x : ReservationRecord => x.block.containsAddr a) hfind'
    unfold classifyAddr
    rw [hu, hfind]
    refine ⟨rfl, ⟨r, rfl, hmem, rfl⟩, ?_⟩
    simp [hasReservationOverlap]

/-- An ENI whose primary IP 10.0.1.10 lies inside the scenario
reservation 10.0.1.10/31. -/
def overlapEni : InterfaceRecord :=
  { interfaceId := "eni-2", description := "overlap", eniStatus := "in-use",
    primaryPrivateIp := 167772426, secondaryPrivateIps := [],
    attachedIpv4Prefixes := [] }

/-- C2 witness: the overlap scenario, concretely. -/
theorem C2_witness :
    (classifyAddr ⟨167772416, 28⟩ [overlapEni] [scenarioResv] 167772426).status =
      IpStatus.used ∧
    (∃ r, reservationAt [scenarioResv] 167772426 = some r ∧
      r.block.containsAddr 167772426 = true ∧
      (classifyAddr ⟨167772416, 28⟩ [overlapEni] [scenarioResv] 167772426).details.cidrReservation =
        some ⟨r.cidr, r.rtype, r.description⟩) ∧
    hasReservationOverlap
      (classifyAddr ⟨167772416, 28⟩ [overlapEni] [scenarioResv] 167772426) = true :=
  C2_used_reservation_overlap ⟨167772416, 28⟩ [overlapEni] [scenarioResv] 167772426
    ⟨UsedType.primary, "eni-2", "overlap", "in-use"⟩ rfl
    ⟨scenarioResv, by simp, by decide⟩

/-- C3 counterexample: the claim says a score of exactly 50 is
classified moderate, but both presentation components classify 50 as
high (red). -/
theorem C3_counterexample :
    (getFragmentationLevel 50).1 = FragLevel.high ∧
    (getFragmentationLevel 50).1 ≠ FragLevel.moderate ∧
    getFragmentationColor 50 = "#ef4444" := by
  refine ⟨?_, ?_, ?_⟩ <;> decide

/-- C3 (amended): the presentation layer classifies a fragmentation
score as low when it is below 20, moderate when it is at least 20 and
below 50, and high when it is at least 50 — a score of exactly 50 is
classified high; `SubnetList`'s bar color agrees with the banding. -/
theorem C3_presentation_banding (s : ℚ) :
    (s < 20 → (getFragmentationLevel s).1 = FragLevel.low ∧
      getFragmentationColor s = "#10b981") ∧
    (20 ≤ s → s < 50 → (getFragmentationLevel s).1 = FragLevel.moderate ∧
      getFragmentationColor s = "#f59e0b") ∧
    (50 ≤ s → (getFragmentationLevel s).1 = FragLevel.high ∧
      getFragmentationColor s = "#ef4444") := by
  refine ⟨fun h => ?_, fun h1 h2 => ?_, fun h => ?_⟩
  · simp [getFragmentationLevel, getFragmentationColor, h]
  · have hn : ¬s < 20 := by linarith
    simp [getFragmentationLevel, getFragmentationColor, hn, h2]
  · have hn1 : ¬s < 20 := by linarith
    have hn2 : ¬s < 50 := by linarith
    simp [getFragmentationLevel, getFragmentationColor, hn1, hn2]

/-- C3 witness: banding at concrete scores 10, 30 and 50. -/
theorem C3_witness :
    (getFragmentationLevel 10).1 = FragLevel.low ∧
    (getFragmentationLevel 30).1 = FragLevel.moderate ∧
    (getFragmentationLevel 50).1 = FragLevel.high :=
  ⟨((C3_presentation_banding 10).1 (by norm_num)).1,
   ((C3_presentation_banding 30).2.1 (by norm_num) (by norm_num)).1,
   ((C3_presentation_banding 50).2.2 (by norm_num)).1⟩

/-- C4: the gap analysis reports exactly the maximal runs of
consecutive `free` addresses — reserved and cidr_reservation statuses
terminate a run — with numGaps the number of runs, largestGap their
maximum (0 with no free addresses) and avgGapSize their mean (0 with
no runs); the §8 scenario reservation splits the free run of 9 into
runs of 4 and 3. -/
theorem C4_gap_analysis (l : List IpStatus) :
    gapRuns l = maximalFreeRuns l ∧
    (gapStats l).num_gaps = (maximalFreeRuns l).length ∧
    (gapStats l).largest_gap = (maximalFreeRuns l).foldr max 0 ∧
    (maximalFreeRuns l = [] → (gapStats l).avg_gap_size = 0) ∧
    (maximalFreeRuns l ≠ [] → (gapStats l).avg_gap_size =
      ((maximalFreeRuns l).sum : ℚ) / ((maximalFreeRuns l).length : ℚ)) ∧
    (summaryOf (analyzeSubnet "10.0.1.0/28" [scenarioEni] [scenarioResv])).map
      (fun s => (s.fragmentationDetails.num_gaps, s.fragmentationDetails.largest_gap,
        s.cidrReservationIps, s.availableIps)) = some (2, 4, 2, 7) := by
  have hruns : gapRuns l = maximalFreeRuns l := (gapScan_spec l).1
  refine ⟨hruns, ?_, ?_, ?_, ?_, rfl⟩
  · simp [gapStats, hruns]
  · simp [gapStats, hruns]
  · intro h
    simp [gapStats, hruns, h]
  · intro h
    have hlen : (maximalFreeRuns l).length ≠ 0 := by
      simpa [List.length_eq_zero] using h
    simp [gapStats, hruns, hlen]

/-- C4 witness: a reservation between free runs yields two runs with
mean 3/2 on a concrete sequence. -/
theorem C4_witness :
    maximalFreeRuns
      [IpStatus.free, IpStatus.cidr_reservation, IpStatus.free, IpStatus.free] ≠ [] ∧
    (gapStats
      [IpStatus.free, IpStatus.cidr_reservation, IpStatus.free, IpStatus.free]).avg_gap_size
      = 3 / 2 := by
  have h := C4_gap_analysis
    [IpStatus.free, IpStatus.cidr_reservation, IpStatus.free, IpStatus.free]
  have hne : maximalFreeRuns
      [IpStatus.free, IpStatus.cidr_reservation, IpStatus.free, IpStatus.free] ≠ [] := by
    rw [← h.1]
    decide
  have hg : gapRuns
      [IpStatus.free, IpStatus.cidr_reservation, IpStatus.free, IpStatus.free] = [1, 2] := by
    decide
  refine ⟨hne, ?_⟩
  rw [h.2.2.2.2.1 hne, ← h.1, hg]
  norm_num [List.sum_cons, List.sum_nil]

/-- C5: the fragmentation score lies in [0,100]; it is 0 whenever
availableIps ≤ 1 or numGaps ≤ 1, hence 0 for a fully-utilized subnet;
a /32 subnet analysis yields score 0 and numGaps 0. -/
theorem C5_score_bounds (numGaps largestGap availableIps : Nat) :
    0 ≤ fragmentationScore numGaps largestGap availableIps ∧
    fragmentationScore numGaps largestGap availableIps ≤ 100 ∧
    (availableIps ≤ 1 ∨ numGaps ≤ 1 →
      fragmentationScore numGaps largestGap availableIps = 0) ∧
    (availableIps = 0 → fragmentationScore numGaps largestGap availableIps = 0) ∧
    (summaryOf (analyzeSubnet "10.0.1.7/32" [] [])).map
      (fun s => (s.fragmentationScore, s.fragmentationDetails.num_gaps)) =
      some (0, 0) := by
  unfold fragmentationScore
  by_cases hc : availableIps ≤ 1 ∨ numGaps ≤ 1
  · rw [if_pos hc]
    exact ⟨le_refl 0, by norm_num, fun _ => rfl, fun _ => rfl, rfl⟩
  · rw [if_neg hc]
    refine ⟨le_min (by norm_num) (le_max_left 0 _), min_le_left 100 _,
      fun h => absurd h hc, fun h => absurd (Or.inl (by omega)) hc, rfl⟩

/-- C5 witness: concrete scorer inputs at the boundary cases. -/
theorem C5_witness :
    fragmentationScore 5 3 0 = 0 ∧ fragmentationScore 1 3 10 = 0 ∧
    0 ≤ fragmentationScore 5 3 10 ∧ fragmentationScore 5 3 10 ≤ 100 :=
  ⟨(C5_score_bounds 5 3 0).2.2.2.1 rfl,
   (C5_score_bounds 1 3 10).2.2.1 (Or.inr (by norm_num)),
   (C5_score_bounds 5 3 10).1, (C5_score_bounds 5 3 10).2.1⟩

/-- C6: with availableIps and largestGap held fixed, the fragmentation
score is monotonically non-decreasing in numGaps. -/
theorem C6_score_monotone (availableIps largestGap g1 g2 : Nat) (h : g2 ≤ g1) :
    fragmentationScore g2 largestGap availableIps ≤
      fragmentationScore g1 largestGap availableIps := by
  unfold fragmentationScore
  by_cases ha : availableIps ≤ 1
  · rw [if_pos (Or.inl ha), if_pos (Or.inl ha)]
  · by_cases hg1 : g1 ≤ 1
    · have hg2 : g2 ≤ 1 := le_trans h hg1
      rw [if_pos (Or.inr hg2), if_pos (Or.inr hg1)]
    · by_cases hg2 : g2 ≤ 1
      · rw [if_pos (Or.inr hg2), if_neg (by push_neg; exact ⟨by omega, by omega⟩)]
        exact le_min (by norm_num) (le_max_left 0 _)
      · rw [if_neg (by push_neg; exact ⟨by omega, by omega⟩),
          if_neg (by push_neg; exact ⟨by omega, by omega⟩)]
        refine min_le_min (le_refl 100) ?_
        rcases le_or_lt 0 (1 - (largestGap : ℚ) / (availableIps : ℚ)) with hf | hf
        · refine max_le_max (le_refl 0) (mul_le_mul_of_nonneg_right ?_ hf)
          have hcast : (g2 : ℚ) ≤ (g1 : ℚ) := by exact_mod_cast h
          linarith
        · have h2 : (10 * g2 : ℚ) * (1 - (largestGap : ℚ) / (availableIps : ℚ)) ≤ 0 := by
            apply mul_nonpos_of_nonneg_of_nonpos
            · positivity
            · linarith
          have h1 : (10 * g1 : ℚ) * (1 - (largestGap : ℚ) / (availableIps : ℚ)) ≤ 0 := by
            apply mul_nonpos_of_nonneg_of_nonpos
            · positivity
            · linarith
          rw [max_eq_left h2, max_eq_left h1]

/-- C6 witness: more gaps with the same free space and largest gap
never lower the score, at concrete inputs. -/
theorem C6_witness :
    fragmentationScore 3 4 10 ≤ fragmentationScore 5 4 10 :=
  C6_score_monotone 10 4 5 3 (by norm_num)

/-- The parser core succeeds exactly on well-formed CIDR strings. -/
lemma parseCidrChars_isSome_iff (s : String) :
    (parseCidrChars s.data).isSome = true ↔ wellFormedCidr s := by
  constructor
  · intro h
    unfold parseCidrChars at h
    cases h1 : splitPair s.data '/' with
    | none => rw [h1] at h; simp at h
    | some ap =>
      obtain ⟨addr, pfx⟩ := ap
      rw [h1] at h
      simp only [Option.some_bind] at h
      cases h2 : splitQuad addr with
      | none => simp only [h2, Option.none_bind] at h; simp at h
      | some q =>
        obtain ⟨o1, o2, o3, o4⟩ := q
        simp only [h2, Option.some_bind] at h
        cases h3 : parseOctet o1 with
        | none => simp only [h3, Option.none_bind] at h; simp at h
        | some a =>
          simp only [h3, Option.some_bind] at h
          cases h4 : parseOctet o2 with
          | none => simp only [h4, Option.none_bind] at h; simp at h
          | some b =>
            simp only [h4, Option.some_bind] at h
            cases h5 : parseOctet o3 with
            | none => simp only [h5, Option.none_bind] at h; simp at h
            | some c =>
              simp only [h5, Option.some_bind] at h
              cases h6 : parseOctet o4 with
              | none => simp only [h6, Option.none_bind] at h; simp at h
              | some d =>
                simp only [h6, Option.some_bind] at h
                cases h7 : parseDigits pfx with
                | none => simp only [h7, Option.none_bind] at h; simp at h
                | some p =>
                  simp only [h7, Option.some_bind] at h
                  by_cases hp : p ≤ 32
                  · exact ⟨addr, pfx, o1, o2, o3, o4, a, b, c, d, p,
                      h1, h2, h3, h4, h5, h6, h7, hp⟩
                  · rw [if_neg hp] at h; simp at h
  · rintro ⟨addr, pfx, o1, o2, o3, o4, a, b, c, d, p,
      h1, h2, h3, h4, h5, h6, h7, h8⟩
    unfold parseCidrChars
    simp [h1, h2, h3, h4, h5, h6, h7, h8]

/-- C7: AddressSpace construction fails with `InvalidCidr` exactly on
malformed CIDR strings (bad shape, bad octet, or prefix length outside
[0,32]); on success the prefix length is within [0,32] and the size is
2^(32 - prefixLength); the analysis returns either a complete result
(whose totalIps is that size) or the single structured error — never a
partial result. -/
theorem C7_invalid_cidr (s : String) :
    (parseCidr s = Except.error AnalysisError.InvalidCidr ↔ ¬ wellFormedCidr s) ∧
    (∀ sp, parseCidr s = Except.ok sp →
      sp.prefixLen ≤ 32 ∧ sp.size = 2 ^ (32 - sp.prefixLen)) ∧
    ((∃ sp, parseCidr s = Except.ok sp) ∨
      parseCidr s = Except.error AnalysisError.InvalidCidr) ∧
    (∀ ifaces resvs e, analyzeSubnet s ifaces resvs = Except.error e →
      parseCidr s = Except.error e) ∧
    (∀ ifaces resvs res, analyzeSubnet s ifaces resvs = Except.ok res →
      ∃ sp, parseCidr s = Except.ok sp ∧ res.summary.totalIps = sp.size) := by
  have hiff := parseCidrChars_isSome_iff s
  refine ⟨?_, ?_, ?_, ?_, ?_⟩
  · have herr : parseCidr s = Except.error AnalysisError.InvalidCidr ↔
        parseCidrChars s.data = none := by
      unfold parseCidr
      cases hc : parseCidrChars s.data <;> simp
    rw [herr]
    constructor
    · intro hn hwf
      have hs := hiff.mpr hwf
      rw [hn] at hs
      exact absurd hs (by simp)
    · intro hnwf
      cases hc : parseCidrChars s.data with
      | none => rfl
      | some a => exact absurd (hiff.mp (by rw [hc]; rfl)) hnwf
  · intro sp hsp
    unfold parseCidr at hsp
    cases hc : parseCidrChars s.data with
    | none => rw [hc] at hsp; exact absurd hsp (by simp)
    | some a =>
      rw [hc] at hsp
      simp only [Except.ok.injEq] at hsp
      subst hsp
      have hwf : wellFormedCidr s := hiff.mp (by rw [hc]; rfl)
      rcases hwf with ⟨addr, pfx, o1, o2, o3, o4, av, bv, cv, dv, p,
        h1, h2, h3, h4, h5, h6, h7, h8⟩
      have hval : parseCidrChars s.data =
          some ⟨((av * 256 + bv) * 256 + cv) * 256 + dv, p⟩ := by
        unfold parseCidrChars
        simp [h1, h2, h3, h4, h5, h6, h7, h8]
      rw [hc] at hval
      simp only [Option.some.injEq] at hval
      subst hval
      exact ⟨h8, rfl⟩
  · unfold parseCidr
    cases hc : parseCidrChars s.data with
    | some a => exact Or.inl ⟨a, rfl⟩
    | none => exact Or.inr rfl
  · intro ifaces resvs e h
    unfold analyzeSubnet at h
    cases hc : parseCidr s with
    | error e0 => rw [hc] at h
    | ok space => rw [hc] at h; exact absurd h (by simp)
  · intro ifaces resvs res h
    unfold analyzeSubnet at h
    cases hc : parseCidr s with
    | error e0 => rw [hc] at h; exact absurd h (by simp)
    | ok space =>
      rw [hc] at h
      simp only [Except.ok.injEq] at h
      subst h
      exact ⟨space, rfl, rfl⟩

/-- C7 witness: a valid /28 parses with size 16; a three-octet string
is rejected as malformed. -/
theorem C7_witness :
    ((⟨167772416, 28⟩ : AddressSpace).prefixLen ≤ 32 ∧
      (⟨167772416, 28⟩ : AddressSpace).size = 2 ^ (32 - 28)) ∧
    ¬ wellFormedCidr "10.0.1/28" :=
  ⟨(C7_invalid_cidr "10.0.1.0/28").2.1 ⟨167772416, 28⟩ rfl,
   (C7_invalid_cidr "10.0.1/28").1.mp rfl⟩

/-- A details object exposing the gap statistics under the camelCase
names the claim asserts. -/
def camelDetails : String → Option ℚ := fun k =>
  if k = "numGaps" then some 2
  else if k = "largestGap" then some 4
  else if k = "avgGapSize" then some (7 / 2)
  else none

/-- C8 counterexample: the presentation layer reads the gap statistics
back under the snake_case names `num_gaps`, `largest_gap` and
`avg_gap_size`; a details object keyed by the claimed camelCase names
yields nothing, and the serialized report does not answer to the
camelCase names. -/
theorem C8_counterexample :
    statisticsGapRows camelDetails = (none, none, none) ∧
    GapStats.lookup ⟨2, 4, 7 / 2⟩ "numGaps" = none ∧
    GapStats.lookup ⟨2, 4, 7 / 2⟩ "largestGap" = none ∧
    GapStats.lookup ⟨2, 4, 7 / 2⟩ "avgGapSize" = none := by
  refine ⟨?_, ?_, ?_, ?_⟩ <;> decide

/-- C8 (amended): the report's fragmentationDetails object exposes the
gap statistics under the field names `num_gaps`, `largest_gap` and
`avg_gap_size`, and those are exactly the names the presentation layer
reads them back from. -/
theorem C8_gap_field_names (g : GapStats) :
    statisticsGapRows g.lookup =
      (some (g.num_gaps : ℚ), some (g.largest_gap : ℚ), some g.avg_gap_size) := by
  have h1 : g.lookup "num_gaps" = some (g.num_gaps : ℚ) := by
    unfold GapStats.lookup
    rw [if_pos rfl]
  have h2 : g.lookup "largest_gap" = some (g.largest_gap : ℚ) := by
    unfold GapStats.lookup
    rw [if_neg (by decide), if_pos rfl]
  have h3 : g.lookup "avg_gap_size" = some g.avg_gap_size := by
    unfold GapStats.lookup
    rw [if_neg (by decide), if_neg (by decide), if_pos rfl]
  unfold statisticsGapRows
  rw [h1, h2, h3]

/-- The palette of block colors `getIpColor` can produce. -/
def ipColorPalette : List String :=
  ["#3b82f6", "#06b6d4", "#8b5cf6", "#9ca3af", "#f59e0b", "#f97316", "#f3f4f6"]

/-- C9: `getIpColor` is total — every record gets a palette color; an
unrecognized or missing status falls back to the free color, a used
address with an unrecognized detail type defaults to blue, and a
cidr_reservation address with an unrecognized detail type defaults to
amber. -/
theorem C9_getIpColor_total (ip : IpView) :
    getIpColor ip ∈ ipColorPalette ∧
    (ip.status ∉ [some "used", some "reserved", some "cidr_reservation", some "free"] →
      getIpColor ip = "#f3f4f6") ∧
    (ip.status = some "used" →
      ip.detailType ∉ [some "primary", some "secondary", some "prefix_delegation"] →
      getIpColor ip = "#3b82f6") ∧
    (ip.status = some "cidr_reservation" →
      ip.detailType ∉ [some "explicit", some "prefix"] →
      getIpColor ip = "#f59e0b") := by
  unfold getIpColor ipColorPalette
  split_ifs with h1 h2 h3 h4 h5 h6 h7 h8 <;> simp_all

/-- C9 witness: a record with an unknown status gets the free color, a
used record with no detail gets blue. -/
theorem C9_witness :
    getIpColor ⟨some "banana", none⟩ = "#f3f4f6" ∧
    getIpColor ⟨some "used", none⟩ = "#3b82f6" :=
  ⟨(C9_getIpColor_total ⟨some "banana", none⟩).2.1 (by decide),
   (C9_getIpColor_total ⟨some "used", none⟩).2.2.1 rfl (by decide)⟩

/-- C10: `SubnetList` produces exactly one of three renderings, with
loading taking precedence over everything, the empty state next, and
otherwise one item per subnet in the given order. -/
theorem C10_subnet_list_rendering (loading : Bool) (subnets : List SubnetView) :
    (loading = true → renderSubnetList loading subnets =
      SubnetListRender.loadingIndicator) ∧
    (loading = false → subnets = [] → renderSubnetList loading subnets =
      SubnetListRender.emptyState) ∧
    (loading = false → subnets ≠ [] → renderSubnetList loading subnets =
      SubnetListRender.items (subnets.map mkSubnetItem) ∧
      (subnets.map mkSubnetItem).length = subnets.length ∧
      ∀ i : Nat, (subnets.map mkSubnetItem)[i]? = (subnets[i]?).map mkSubnetItem) := by
  refine ⟨fun hl => ?_, fun hl he => ?_, fun hl hne => ?_⟩
  · simp [renderSubnetList, hl]
  · simp [renderSubnetList, hl, he]
  · have hlen : subnets.length ≠ 0 := by
      simpa [List.length_eq_zero] using hne
    refine ⟨by simp [renderSubnetList, hl, hlen], by simp, fun i => ?_⟩
    simp [List.getElem?_map]

/-- A concrete subnet record for the rendering witness. -/
def sampleSubnetView : SubnetView :=
  { id := "subnet-1", name := "app-a", availabilityZone := "us-east-1a",
    cidr := "10.0.1.0/28", utilization := 25 / 2, usedIps := 2, totalIps := 16,
    availableIps := 9, fragmentationScore := 0 }

/-- C10 witness: loading wins even with subnets present; an empty list
renders the empty state; otherwise one item per subnet. -/
theorem C10_witness :
    renderSubnetList true [sampleSubnetView] = SubnetListRender.loadingIndicator ∧
    renderSubnetList false [] = SubnetListRender.emptyState ∧
    renderSubnetList false [sampleSubnetView] =
      SubnetListRender.items ([sampleSubnetView].map mkSubnetItem) :=
  ⟨(C10_subnet_list_rendering true [sampleSubnetView]).1 rfl,
   (C10_subnet_list_rendering false []).2.1 rfl rfl,
   ((C10_subnet_list_rendering false [sampleSubnetView]).2.2 rfl (by simp)).1⟩
